import Mathlib

/-
Verification development for the weathermap-ng circuit/link engine.

The Python sources are shallowly embedded:
  * `circuit.py`  : description parsing (`_get_int_id`, `_parse_description`),
    link verification (`verify_link`), matching (`search_by_description`,
    `get_links_between`), rate enrichment (`get_rates`), and the
    multi-datasource merge (`merge_datasources`).
  * `link.py`     : `Interface`, `Link` (equality / hash input), `Remote`.
  * `datasource.py`: the `Rate` record and its `reverse`.
  * `datasources/influx.py`: `_parse_rates` / `_parse_optics` row handling.

Python strings are embedded as `String` (operated on as `List Char`), Python
`None` as `Option.none`, raised exceptions as `Except` errors.  Functions whose
results come from network backends (`merge_datasources` callbacks) are taken as
explicit function parameters, and `datetime.now().year` is an explicit `year`
parameter.  Side effects that only feed logging (the deduplicated
`verification_errors` set) are not modelled: they never influence the values
returned by the functions below.
-/

namespace Weathermap

/-! ### Python string primitives -/

/-- Lowercase one ASCII character, mirroring `str.lower` on the ASCII inputs
the parser receives. -/
def lowerChar (c : Char) : Char :=
  if 'A' ≤ c ∧ c ≤ 'Z' then Char.ofNat (c.toNat + 32) else c

/-- Python `s.split(sep)` for a one-character separator (keeps empty pieces,
`"".split` gives `[""]`). -/
def splitTok (sep : Char) : List Char → List (List Char)
  | [] => [[]]
  | c :: rest =>
    let r := splitTok sep rest
    if c == sep then [] :: r
    else
      match r with
      | h :: t => (c :: h) :: t
      | [] => [[c]]

/-- Check that `needle` occurs at the head of `hay`. -/
def headMatchL : List Char → List Char → Bool
  | [], _ => true
  | _ :: _, [] => false
  | a :: as, b :: bs => a == b && headMatchL as bs

/-- Contiguous-substring test on character lists. -/
def containsSub (needle : List Char) : List Char → Bool
  | [] => headMatchL needle []
  | b :: bs => headMatchL needle (b :: bs) || containsSub needle bs

/-- Python `needle in hay` on strings: contiguous substring containment. -/
def pyIn (needle hay : String) : Bool := containsSub needle.toList hay.toList

/-- Python `str.isnumeric` restricted to the ASCII digits that occur in
interface descriptions: nonempty and all decimal digits. -/
def isNumericTok (t : List Char) : Bool := !t.isEmpty && t.all Char.isDigit

/-- Value of `int(t)` for a token of decimal digits. -/
def tokToNat (t : List Char) : Nat := t.foldl (fun n c => 10 * n + (c.toNat - 48)) 0

/-- Truthiness of a Python value that is either `None` or a string:
`None` and `""` are falsy. -/
def pyFalsy : Option String → Bool
  | none => true
  | some s => s.isEmpty

/-! ### Data model (`link.py`, `datasource.py`)

`Interface` is the namedtuple `(node, interface, description)`; the matcher
only ever builds it from actual strings, so the fields are `String`. -/

/-- Embeds the `Interface` namedtuple of `link.py` as built by the matcher:
`(node, interface, description)`, all actual strings. -/
structure Iface where
  node : String
  interface : String
  description : String
deriving DecidableEq, Repr

/-- Embeds `Interface.__str__`: `f"{self.node} {self.interface}{desc}"` with
`desc = f" ({self.description})"` when the description is truthy. -/
def Iface.pyStr (i : Iface) : String :=
  i.node ++ " " ++ i.interface ++
    (if i.description.isEmpty then "" else " (" ++ i.description ++ ")")

/-- Embeds the `Rate` namedtuple of `datasource.py`
(`in_r, out_r, bw, datasource, datetime`).  The first three fields may be
Python `None` (the tests build `Rate(None, None, None, …)`), hence `Option`.
The timestamp is abstracted to a number. -/
structure Rate where
  in_r : Option Int
  out_r : Option Int
  bw : Option Int
  datasource : String
  datetime : Nat
deriving DecidableEq, Repr

/-- Embeds `Rate.reverse`: swap input and output rates, keep the rest. -/
def Rate.reverse (r : Rate) : Rate :=
  Rate.mk r.out_r r.in_r r.bw r.datasource r.datetime

/-- Embeds the `State` namedtuple `(state, datasource, datetime)`. -/
structure StateS where
  state : String
  datasource : String
  datetime : Nat
deriving DecidableEq, Repr

/-- Embeds the mutable `Link` object of `link.py` restricted to the fields the
rate pipeline touches (`__init__` sets them all to `None`; the health/optic
counters are never read by the claims below and are elided). -/
structure Link where
  source : Iface
  target : Iface
  state : Option String := none
  in_rate : Option Int := none
  out_rate : Option Int := none
  bandwidth : Option Int := none
  datasource : Option String := none
  datetimeV : Option Nat := none
deriving DecidableEq, Repr

/-- Embeds `Link(source, target)`: fresh link, every measurement `None`. -/
def mkLink (s t : Iface) : Link := { source := s, target := t }

/-- Embeds the body of `Link.__eq__` for a `Link` argument (the `isinstance`
test succeeds): unordered comparison of the endpoint pair. -/
def Link.pyEq (a b : Link) : Bool :=
  (a.source == b.source && a.target == b.target) ||
  (a.source == b.target && a.target == b.source)

/-- Embeds the string that `Link.__hash__` feeds to Python's string hash:
`str(self.source) + str(self.target)`.  Within a process `hash(link)` is a
fixed function of this string, so two links hash alike for every run exactly
when their hash inputs coincide. -/
def Link.hashInput (l : Link) : String := l.source.pyStr ++ l.target.pyStr

/-- Embeds `Remote` of `link.py`: `__init__` calls `del self.target`, so a
`Remote` value has a source and a label but no `target` attribute at all. -/
structure RemoteL where
  source : Iface
  remote : String
deriving DecidableEq, Repr

/-- Embeds `Link.set_rates`: a `Rate` argument overwrites the rate fields,
`datasource` and `datetime`; `None` (or a non-`Rate`) leaves the link as is. -/
def Link.setRates (l : Link) : Option Rate → Link
  | none => l
  | some r =>
    { l with in_rate := r.in_r, out_rate := r.out_r, bandwidth := r.bw,
             datasource := some r.datasource, datetimeV := some r.datetime }

/-- Embeds `Link.set_state`: a `State` argument sets `state` and fills
`datasource`/`datetime` only when they are still falsy. -/
def Link.setState (l : Link) : Option StateS → Link
  | none => l
  | some s =>
    { l with state := some s.state,
             datasource := if pyFalsy l.datasource then some s.datasource else l.datasource,
             datetimeV := if l.datetimeV.isNone then some s.datetime else l.datetimeV }

/-! ### Description parsing (`circuit.py`) -/

/-- Embeds the configuration fields of `config.CircuitConfig` that the parser
and matcher read. -/
structure Config where
  NODE_EXCLUDELIST : List String
  DESCRIPTION_EXCLUDELIST : List String
deriving DecidableEq, Repr

/-- Scan past the leading digit run and report whether a `/` follows it
immediately (backtracking of `\d+` before the literal `/`). -/
def afterDigitsSlash : List Char → Bool
  | [] => false
  | c :: rest => if c == '/' then true else if c.isDigit then afterDigitsSlash rest else false

/-- Match of `\d+\/.*` anchored at the head of the list: a digit followed by a
digit run that runs into a `/`. -/
def digitSlashHere : List Char → Bool
  | [] => false
  | c :: rest => c.isDigit && afterDigitsSlash rest

/-- Embeds `Circuit._get_int_id`: `re.findall(r'\d+\/.*', int_name)` and take
the first match, i.e. the suffix starting at the first digit run that is
followed by `/` (the `.*` swallows the rest of the string). -/
def getIntId : List Char → Option (List Char)
  | [] => none
  | c :: rest => if digitSlashHere (c :: rest) then some (c :: rest) else getIntId rest

/-- Match of `re.match(r'[\w-]*\d+', s)`: some prefix of word characters or
hyphens followed by a digit. -/
def wordDashDigit : List Char → Bool
  | [] => false
  | c :: rest => c.isDigit || ((c.isAlphanum || c == '_' || c == '-') && wordDashDigit rest)

/-- Check of the year-skip guard in `_parse_description`:
`tok.isnumeric() and (current_year - 15 < int(tok) <= current_year)`. -/
def isYearTok (year : Int) (t : List Char) : Bool :=
  isNumericTok t && (year - 15 < (tokToNat t : Int) && (tokToNat t : Int) ≤ year)

/-- Result of `_parse_description`: the returned `Interface(node, int_id, None)`
whose first two fields may be Python `None`.  Modelled by a dedicated record
because the matcher-built `Interface` always carries actual strings. -/
structure Hint where
  node : Option String
  iface : Option String
deriving DecidableEq, Repr

/-- Embeds the `while index < len(description)` walk of `_parse_description`
over the tokens `description[-1], description[-2], …, description[1]` (the
first token is never examined).  State: the `int_id` and `node` locals. -/
def parseWalk (excl : List String) (year : Int) :
    List (List Char) → Option String → Option String → Option String × Option String
  | [], intId, node => (intId, node)
  | t :: rest, intId, node =>
    if isYearTok year t then
      -- skip circuit installation date (anything in the last 15 years)
      parseWalk excl year rest intId node
    else if pyFalsy intId then
      match getIntId t with
      | some i =>
        if wordDashDigit i then parseWalk excl year rest (some (String.mk i)) node
        else parseWalk excl year rest none node
      | none => parseWalk excl year rest none node
    else if pyFalsy node then
      if String.mk t ∈ excl then parseWalk excl year rest intId none
      else parseWalk excl year rest intId (some (String.mk t))
    else (intId, node)

/-- Embeds `Circuit._parse_description`: lowercase, split on `_`, walk the
tokens from the right, return `None` when both hints stay falsy. -/
def parseDescription (excl : List String) (year : Int) (description : String) : Option Hint :=
  let tokens := splitTok '_' (description.toList.map lowerChar)
  let p := parseWalk excl year (tokens.drop 1).reverse none none
  if pyFalsy p.1 && pyFalsy p.2 then none else some { node := p.2, iface := p.1 }

/-! ### Link verification (`circuit.py`) -/

/-- Class of a `VerificationError` message raised by `verify_link` (the
message text identifies one of these mismatch classes). -/
inductive VKind where
  | unparsable
  | loop
  | mismatchInterface
  | mismatchNode
deriving DecidableEq, Repr

/-- Python exceptions that can escape the embedded code: a
`VerificationError`, a `TypeError` (`None in <string>`), or an
`AttributeError` (reading a deleted attribute). -/
inductive PyErr where
  | verification (k : VKind)
  | typeError
  | attributeError
deriving DecidableEq, Repr

/-- Python `x in hay` where `x` may be `None`: `None` as the left operand of
`in` on a string raises `TypeError`. -/
def pyInOpt (x : Option String) (hay : String) : Except PyErr Bool :=
  match x with
  | none => Except.error PyErr.typeError
  | some s => Except.ok (pyIn s hay)

/-- Embeds `Circuit.verify_link`: parse both descriptions and run the clause
checks in source order; the first failing clause raises. -/
def verifyLink (cfg : Config) (year : Int) (local_ remote : Iface) : Except PyErr Bool :=
  let remoteT := parseDescription cfg.NODE_EXCLUDELIST year remote.description
  let localT := parseDescription cfg.NODE_EXCLUDELIST year local_.description
  match localT with
  | none => Except.error (PyErr.verification VKind.unparsable)
  | some lt =>
    match remoteT with
    | none => Except.error (PyErr.verification VKind.unparsable)
    | some rt =>
      if local_.node == remote.node then Except.error (PyErr.verification VKind.loop)
      else
        match pyInOpt rt.iface local_.interface with
        | Except.error e => Except.error e
        | Except.ok b1 =>
          if !b1 then Except.error (PyErr.verification VKind.mismatchInterface)
          else
            match pyInOpt lt.iface remote.interface with
            | Except.error e => Except.error e
            | Except.ok b2 =>
              if !b2 then Except.error (PyErr.verification VKind.mismatchInterface)
              else
                match pyInOpt rt.node local_.node with
                | Except.error e => Except.error e
                | Except.ok b3 =>
                  if !b3 then Except.error (PyErr.verification VKind.mismatchNode)
                  else
                    match pyInOpt lt.node remote.node with
                    | Except.error e => Except.error e
                    | Except.ok b4 =>
                      if !b4 then Except.error (PyErr.verification VKind.mismatchNode)
                      else Except.ok true

/-! ### Matching (`circuit.py`) -/

/-- Embeds the candidate loop of `Circuit.search_by_description` (with the
parsed local hint `rp` fixed): walk `interfacelist` and return the first
remote interface that survives the guards and verifies.  `VerificationError`s
are caught when `fatalNonverify` is false (they are only logged); a
`TypeError` escaping `verify_link` propagates. -/
def searchAux (cfg : Config) (year : Int) (fatalNonverify : Bool) (interface : Iface)
    (rp : Hint) : List Iface → Except PyErr (Option Iface)
  | [] => Except.ok none
  | ri :: rest =>
    if pyFalsy rp.node then
      -- skip if the node name was not parsed
      searchAux cfg year fatalNonverify interface rp rest
    else
      match rp.node with
      | none => searchAux cfg year fatalNonverify interface rp rest
      | some n =>
        if pyIn n ri.node then
          match pyInOpt rp.iface ri.interface with
          | Except.error e => Except.error e
          | Except.ok bi =>
            if !bi then searchAux cfg year fatalNonverify interface rp rest
            else if interface.node == ri.node then
              -- skip if this device and the remote device are the same
              searchAux cfg year fatalNonverify interface rp rest
            else
              match verifyLink cfg year interface ri with
              | Except.ok true => Except.ok (some ri)
              | Except.ok false => searchAux cfg year fatalNonverify interface rp rest
              | Except.error (PyErr.verification k) =>
                if fatalNonverify then Except.error (PyErr.verification k)
                else searchAux cfg year fatalNonverify interface rp rest
              | Except.error e => Except.error e
        else searchAux cfg year fatalNonverify interface rp rest

/-- Embeds `Circuit.search_by_description`: parse the local description; an
unparsable description returns `None` immediately. -/
def searchByDescription (cfg : Config) (year : Int) (fatalNonverify : Bool)
    (interfacelist : List Iface) (interface : Iface) : Except PyErr (Option Iface) :=
  match parseDescription cfg.NODE_EXCLUDELIST year interface.description with
  | none => Except.ok none
  | some rp => searchAux cfg year fatalNonverify interface rp interfacelist

/-- Embeds the matched-description filter of `Circuit.get_links_between`: for
one interface, the inner `for match in nodelist` loop appends the interface
once per node entry that occurs in its description (subject to the skip-self
rule and the description excludelist). -/
def matchedFor (cfg : Config) (skipSelf : Bool) (nodelist : List String) (i : Iface) :
    List Iface :=
  nodelist.filterMap fun m =>
    if skipSelf && pyIn m i.description && pyIn m i.node then none
    else if pyIn m i.description &&
        !(cfg.DESCRIPTION_EXCLUDELIST.any fun exc => pyIn exc i.description) then some i
    else none

/-- Embeds the link-building loop at the end of `Circuit.get_links_between`:
walk the matched descriptions, search each one against the full matched list,
and emit a `Link` when the found counterpart is new; `exclude` collects the
already-paired endpoints. -/
def buildLinks (cfg : Config) (year : Int) (matched : List Iface) :
    List Iface → List Iface → Except PyErr (List Link)
  | [], _ => Except.ok []
  | m :: rest, exclude =>
    if m ∈ exclude then buildLinks cfg year matched rest exclude
    else
      match searchByDescription cfg year false matched m with
      | Except.error e => Except.error e
      | Except.ok none => buildLinks cfg year matched rest exclude
      | Except.ok (some f) =>
        if f ∈ exclude then buildLinks cfg year matched rest exclude
        else
          match buildLinks cfg year matched rest (exclude ++ [m, f]) with
          | Except.error e => Except.error e
          | Except.ok ls => Except.ok (mkLink m f :: ls)

/-- Embeds `Circuit.get_links_between`.  `descriptions` stands for the result
of `get_all_links(nodelist)` (a backend query, taken as input here). -/
def getLinksBetween (cfg : Config) (year : Int) (descriptions : List Iface)
    (nodelist : List String) (skipSelf : Bool) : Except PyErr (List Link) :=
  let matched := descriptions.flatMap (matchedFor cfg skipSelf nodelist)
  buildLinks cfg year matched matched []

/-! ### Rate enrichment (`circuit.py`, `get_rates`, remotes unset) -/

/-- Test `link.in_rate is None and link.out_rate is None and link.bandwidth is
None` from `get_rates`. -/
def Link.ratesAllNone (l : Link) : Bool :=
  l.in_rate.isNone && l.out_rate.isNone && l.bandwidth.isNone

/-- Embeds the per-link body of `Circuit.get_rates` on the `remotes=False`
path.  `fR`/`fS` give the merged `get_rates`/`get_states` lookup for a node
name and interface id (the `tmp_rates`/`tmp_states` memoization is
transparent for pure lookups).  Returns `none` when the final
all-`None` check removes the link from the result list. -/
def processRateLink (fR : String → String → Option Rate)
    (fS : String → String → Option StateS) (link : Link) : Option Link :=
  -- read rates from the source side first
  let l1 := (link.setRates (fR link.source.node link.source.interface)).setState
      (fS link.source.node link.source.interface)
  -- if we're reading None (no rates found), overwrite with the target side if available
  let l2 :=
    if l1.ratesAllNone then
      let rateLookup := fR link.target.node link.target.interface
      ((l1.setRates (rateLookup.map Rate.reverse)).setState
        (fS link.target.node link.target.interface))
    else l1
  -- no real data found for this link, remove it from the list
  if l2.ratesAllNone then none else some l2

/-- Embeds the loop of `Circuit.get_rates` over the cached link list
(`remotes=False`): each link is enriched in place and the ones whose rates
stay `None` are removed from the returned list. -/
def getRates (fR : String → String → Option Rate)
    (fS : String → String → Option StateS) (links : List Link) : List Link :=
  links.filterMap (processRateLink fR fS)

/-! ### Multi-datasource merge (`circuit.py`, `merge_datasources`) -/

/-- Embeds the `if name not in nodes: nodes[name] = results[datasource][name]`
insertion of `merge_datasources` for one datasource result (an insertion-
ordered dictionary, given as key/value pairs). -/
def mergeOne (nodes res : List (String × α)) : List (String × α) :=
  res.foldl (fun ns kv => if (ns.lookup kv.1).isSome then ns else ns ++ [kv]) nodes

/-- Embeds the merge loop of `Circuit.merge_datasources`: join the per-
datasource results in the order of `self.datasources`, never overwriting a
key an earlier datasource produced.  `results` is the list of dictionaries
the worker threads stored, listed in registration order (a datasource whose
thread produced nothing contributes `[]`). -/
def mergeDatasources (results : List (List (String × α))) : List (String × α) :=
  results.foldl mergeOne []

/-! ### TSDB row parsing (`datasources/influx.py`) -/

/-- Embeds a TSDB rate row as consumed by `InfluxClient._parse_rates`:
`point.get('in', 0)` / `point.get('out', 0)` (an absent field defaults to 0),
`point.get('bw')` which may be `null`, and the timestamp. -/
structure RateRow where
  inK : Int
  outK : Int
  bw : Option Int
  time : Nat
deriving DecidableEq, Repr

/-- Embeds the single-sample branch of `_parse_rates` for one interface:
a row whose `bw` is `null` is skipped (`continue`, no entry is stored);
otherwise rates are converted from kbps to bps. -/
def parseRateSingle (ds : String) (now : Nat) (r : RateRow) : Option Rate :=
  match r.bw with
  | none => none
  | some b => some (Rate.mk (some (r.inK * 1000)) (some (r.outK * 1000)) (some (b * 1000)) ds now)

/-- Embeds the historic (multi-row) branch of `_parse_rates` for one
interface.  A `null`-bandwidth row appends a `None` placeholder but the code
then falls through (there is no `continue`) into the `Rate(...)` constructor,
where `point.get('bw') * 1000` raises `TypeError`; the enclosing
`except TypeError: continue` abandons the rest of this interface's rows,
leaving the partial list in the dictionary. -/
def parseRateHistoric (ds : String) : List RateRow → List (Option Rate)
  | [] => []
  | r :: rest =>
    match r.bw with
    | none => [none]
    | some b =>
      some (Rate.mk (some (r.inK * 1000)) (some (r.outK * 1000)) (some (b * 1000)) ds r.time) ::
        parseRateHistoric ds rest

/-- Embeds the `Optic` namedtuple `(rx, tx, lbc, datasource, datetime)`;
optical values are divided, so they are modelled as rationals. -/
structure Optic where
  rx : ℚ
  tx : ℚ
  lbc : ℚ
  datasource : String
  datetime : Nat
deriving DecidableEq, Repr

/-- Embeds a TSDB optic row as consumed by `InfluxClient._parse_optics`:
`rx`/`tx` readings and the `lbc` field which may be `null`. -/
structure OpticRow where
  rx : ℚ
  tx : ℚ
  lbc : Option ℚ
  time : Nat
deriving DecidableEq, Repr

/-- Scale adjustment of `_parse_optics`: divide by 100, then by 10 more when
the laser bias current still exceeds 100 (upstream 10x scaling bug). -/
def mkOptic (ds : String) (time : Nat) (rx tx lbc : ℚ) : Optic :=
  let o := Optic.mk (rx / 100) (tx / 100) (lbc / 100) ds time
  if o.lbc > 100 then Optic.mk (o.rx / 10) (o.tx / 10) (o.lbc / 10) o.datasource o.datetime
  else o

/-- Embeds the single-sample branch of `_parse_optics` for one interface:
a row whose `lbc` is `null` is skipped. -/
def parseOpticSingle (ds : String) (now : Nat) (r : OpticRow) : Option Optic :=
  match r.lbc with
  | none => none
  | some lb => some (mkOptic ds now r.rx r.tx lb)

/-- Embeds the historic branch of `_parse_optics` for one interface: a
`null`-LBC row appends a `None` placeholder and `continue`s, so later rows of
the same interface are still emitted. -/
def parseOpticHistoric (ds : String) : List OpticRow → List (Option Optic)
  | [] => []
  | r :: rest =>
    match r.lbc with
    | none => none :: parseOpticHistoric ds rest
    | some lb => some (mkOptic ds r.time r.rx r.tx lb) :: parseOpticHistoric ds rest

/-! ### Python `==` dispatch between `Link` and `Remote` (`link.py`) -/

/-- Embeds a direct call of `Link.__eq__` with a `Remote` argument.  The
`isinstance(other, self.__class__)` test succeeds (`Remote` subclasses
`Link`), and both disjuncts then read `other.target`, an attribute
`Remote.__init__` deleted — so the call raises `AttributeError` on either
branch of the short-circuit. -/
def linkEqMethodRemote (l : Link) (r : RemoteL) : Except PyErr Bool :=
  if l.source == r.source then Except.error PyErr.attributeError
  else Except.error PyErr.attributeError

/-- Embeds `Remote.__eq__` with a plain `Link` argument:
`isinstance(other, self.__class__)` is false (a `Link` is not a `Remote`), so
the conjunction short-circuits to `False`. -/
def remoteEqMethodLink (_ : RemoteL) (_ : Link) : Bool := false

/-- Embeds the CPython evaluation of `link == remote`: since `type(remote)` is
a proper subclass of `type(link)` and overrides `__eq__`, the reflected method
`Remote.__eq__(remote, link)` runs first; it returns the boolean `False`
(never `NotImplemented`), so `Link.__eq__` is never consulted. -/
def pyEqOpLinkRemote (l : Link) (r : RemoteL) : Except PyErr Bool :=
  Except.ok (remoteEqMethodLink r l)

/-! ### Concrete scenario values used by the witnesses and counterexamples -/

/-- Test lookup of `get_rates`: `None` or a `Rate` whose three data fields are
all `None` — exactly the situations in which `set_rates` leaves every rate
field of a fresh link at `None`. -/
def rateOptEmpty : Option Rate → Bool
  | none => true
  | some r => r.in_r.isNone && r.out_r.isNone && r.bw.isNone

/-- Configuration with empty excludelists (the parser examples only need that
the remote node name is not excluded). -/
def cfgEmpty : Config := Config.mk [] []

/-- Source endpoint of the `test_link.py` fixture link. -/
def ifaceTeA : Iface := Iface.mk "node-a" "Te1/1" "desc"

/-- Target endpoint of the `test_link.py` fixture link. -/
def ifaceTeB : Iface := Iface.mk "node-b" "Te2/1" "desc"

/-- Concrete link compared against a `Remote`. -/
def linkLR : Link := mkLink (Iface.mk "node-c" "Te3/1" "d") (Iface.mk "node-d" "Te4/1" "d")

/-- Concrete `Remote` (cf. `test_remote` in `test_link.py`). -/
def remoteLR : RemoteL := RemoteL.mk (Iface.mk "node-c" "Te3/1" "d") "remote_desc"

/-- Local side of the `verify_link` TypeError scenario: its description parses
to the hint `(node-b, 1/1)`. -/
def ifLocalA : Iface := Iface.mk "node-a" "te1/1" "dc_node-b_te1/1"

/-- Remote side of the `verify_link` TypeError scenario: `"dc_te1/1"` parses
to a hint with interface `1/1` but node `None`, so the node-substring check
applies `in` to `None`. -/
def ifRemoteNoNode : Iface := Iface.mk "node-b" "te1/1" "dc_te1/1"

/-- Interface list fed to `get_links_between` in the witness scenario (the
`node-a ↔ node-b` pair of the test topology). -/
def descsW : List Iface :=
  [Iface.mk "node-a" "TenGigabitEth1/1" "DC_node-b_Te1/1",
   Iface.mk "node-b" "TenGigabitEth1/1" "DC_node-a_Te1/1"]

/-- Link that the witness scenario emits. -/
def linkW : Link :=
  mkLink (Iface.mk "node-a" "TenGigabitEth1/1" "DC_node-b_Te1/1")
    (Iface.mk "node-b" "TenGigabitEth1/1" "DC_node-a_Te1/1")

/-- Fresh link of the rate-fallback witness scenario. -/
def linkRateW : Link := mkLink (Iface.mk "node-a" "Te1/1" "d1") (Iface.mk "node-b" "Te2/1" "d2")

/-- Merged `get_rates` lookup of the rate-fallback witness: only the target
side of `linkRateW` has data. -/
def fRW : String → String → Option Rate := fun n i =>
  if n = "node-b" ∧ i = "Te2/1" then some (Rate.mk (some 100) (some 200) (some 1000) "fake" 5)
  else none

/-- Merged `get_states` lookup of the rate-fallback witness: no state data. -/
def fSW : String → String → Option StateS := fun _ _ => none

/-- Historic rate rows with a `null`-bandwidth first row: the failing input of
the `_parse_rates` placeholder handling. -/
def rateRowsNull : List RateRow := [RateRow.mk 0 0 none 0, RateRow.mk 1 2 (some 5) 1]

/-- Historic optic rows with a `null`-LBC first row. -/
def opticRowsNull : List OpticRow := [OpticRow.mk 100 200 none 0, OpticRow.mk 100 200 (some 300) 1]

/-! ## Helper lemmas -/

theorem lookup_append (k : String) (l1 l2 : List (String × α)) :
    (l1 ++ l2).lookup k = (l1.lookup k).or (l2.lookup k) := by
  induction l1 with
  | nil => simp [List.lookup]
  | cons kv rest ih =>
    by_cases h : k == kv.1
    · simp [List.lookup, h, Option.or]
    · simpa [List.lookup, h] using ih

theorem mergeOne_lookup (k : String) (nodes res : List (String × α)) :
    (mergeOne nodes res).lookup k = (nodes.lookup k).or (res.lookup k) := by
  induction res generalizing nodes with
  | nil => cases h : nodes.lookup k <;> simp [mergeOne, h, Option.or]
  | cons kv rest ih =>
    have hstep : mergeOne nodes (kv :: rest) =
        mergeOne (if (nodes.lookup kv.1).isSome then nodes else nodes ++ [kv]) rest := rfl
    have hcons : (kv :: rest).lookup k = if k == kv.1 then some kv.2 else rest.lookup k := by
      by_cases h : k == kv.1 <;> simp [List.lookup, h]
    rw [hstep, hcons]
    by_cases hk : (nodes.lookup kv.1).isSome
    · rw [if_pos hk, ih nodes]
      by_cases hkk : k == kv.1
      · have hke : k = kv.1 := by simpa using hkk
        subst hke
        obtain ⟨v, hv⟩ := Option.isSome_iff_exists.mp hk
        rw [hv, if_pos hkk]
        rfl
      · rw [if_neg hkk]
    · rw [if_neg hk, ih (nodes ++ [kv]), lookup_append]
      by_cases hkk : k == kv.1
      · have hke : k = kv.1 := by simpa using hkk
        subst hke
        have hnone : nodes.lookup kv.1 = none := by
          cases h : nodes.lookup kv.1 with
          | none => rfl
          | some v => rw [h] at hk; simp at hk
        rw [hnone, if_pos hkk]
        simp [List.lookup, hkk, Option.or]
      · rw [if_neg hkk]
        have hsingle : ([kv] : List (String × α)).lookup k = none := by
          simp [List.lookup, hkk]
        rw [hsingle]
        cases h : nodes.lookup k <;> simp [h, Option.or]

theorem mergeDatasources_lookup_aux (k : String) (results : List (List (String × α)))
    (acc : List (String × α)) :
    ((results.foldl mergeOne acc).lookup k) =
      (acc.lookup k).or (results.findSome? fun res => res.lookup k) := by
  induction results generalizing acc with
  | nil => simp
  | cons res rest ih =>
    rw [List.foldl_cons, ih, mergeOne_lookup, Option.or_assoc]
    congr 1
    cases h : res.lookup k with
    | none => simp [List.findSome?, h, Option.or]
    | some v => simp [List.findSome?, h, Option.or]

/-! ## Claim theorems -/

/-- C7: for every Rate `R`, `R.reverse().reverse() == R`, the bandwidth (and
the datasource and timestamp) are invariant under `reverse`, and the input and
output rates swap. -/
theorem rate_reverse_involution (r : Rate) :
    r.reverse.reverse = r ∧ r.reverse.bw = r.bw ∧ r.reverse.datasource = r.datasource ∧
    r.reverse.datetime = r.datetime ∧ r.reverse.in_r = r.out_r ∧ r.reverse.out_r = r.in_r := by
  refine ⟨?_, rfl, rfl, rfl, rfl, rfl⟩
  cases r
  rfl

/-- C6 (counterexample): the two orientations of the `test_link.py` fixture
link compare equal under `Link.__eq__`, but `__hash__` hashes the strings
`str(A)+str(B)` and `str(B)+str(A)`, which differ — so the hashes are not
guaranteed equal (and `test_link_building` indeed expects the two orientations
to occupy two distinct hash buckets in a set). -/
theorem link_hash_orientation_counterexample :
    Link.pyEq (mkLink ifaceTeA ifaceTeB) (mkLink ifaceTeB ifaceTeA) = true ∧
    Link.hashInput (mkLink ifaceTeA ifaceTeB) ≠ Link.hashInput (mkLink ifaceTeB ifaceTeA) := by
  decide

/-- C6 (amended): equality of links is orientation-independent, but the hash
input is the concatenation `str(source) + str(target)`, so swapped links feed
the very same data to the hash exactly when the two concatenations coincide
(e.g. when both endpoints print alike) — not in general. -/
theorem link_eq_orientation_independent (a b : Iface) :
    Link.pyEq (mkLink a b) (mkLink b a) = true ∧
    (Link.hashInput (mkLink a b) = Link.hashInput (mkLink b a) ↔
      a.pyStr ++ b.pyStr = b.pyStr ++ a.pyStr) := by
  constructor
  · simp [Link.pyEq, mkLink]
  · exact Iff.rfl

/-- C10 (counterexample): evaluating `link == remote` does return a boolean,
namely `False`: CPython runs the subclass's `Remote.__eq__` first and it
returns `False`, so `Link.__eq__` never reads the deleted `target`
attribute. -/
theorem link_eq_remote_counterexample :
    pyEqOpLinkRemote linkLR remoteLR = Except.ok false := rfl

/-- C10 (amended): for every Link and Remote, the expression `L == R`
evaluates to `False` (the subclass's reflected `__eq__` has priority and
returns a boolean), while a *direct* call of `Link.__eq__` with a Remote
argument raises `AttributeError` because `Remote.__init__` deleted
`target`. -/
theorem link_eq_remote_dispatch (l : Link) (r : RemoteL) :
    pyEqOpLinkRemote l r = Except.ok false ∧
    linkEqMethodRemote l r = Except.error PyErr.attributeError := by
  refine ⟨rfl, ?_⟩
  unfold linkEqMethodRemote
  split <;> rfl

/-- C8: in the TSDB historic row parsing, a `null`-bandwidth rate row leaves
its `None` placeholder but then aborts the interface (the missing `continue`
makes `Rate(… None * 1000 …)` raise `TypeError`), so the following non-null
row is dropped — while the optics path `continue`s and keeps emitting, and the
single-sample paths skip `null` rows; this exhibits the code/::comment
divergence on the rates path. -/
theorem influx_null_row_divergence :
    parseRateHistoric "ds" rateRowsNull = [none] ∧
    parseOpticHistoric "ds" opticRowsNull =
      [none, some (Optic.mk 1 2 3 "ds" 1)] ∧
    parseRateSingle "ds" 0 (RateRow.mk 0 0 none 0) = none ∧
    parseOpticSingle "ds" 0 (OpticRow.mk 100 200 none 0) = none := by
  refine ⟨rfl, ?_, rfl, rfl⟩
  show _ = _
  norm_num [parseOpticHistoric, parseOpticSingle, mkOptic]

/-- C3: the multi-datasource merge keeps, for every key, the value of the
first datasource in registration order whose result contains that key; later
datasources never overwrite it.  The merge is a function of the per-datasource
result dictionaries alone, so it does not depend on which worker thread
finished first. -/
theorem merge_first_backend_wins (results : List (List (String × α))) (k : String) :
    (mergeDatasources results).lookup k = results.findSome? (fun res => res.lookup k) := by
  have h := mergeDatasources_lookup_aux k results []
  simpa [mergeDatasources] using h

theorem parseWalk_cons_year {excl : List String} {year : Int} {t : List Char}
    (rest : List (List Char)) (intId node : Option String) (h : isYearTok year t = true) :
    parseWalk excl year (t :: rest) intId node = parseWalk excl year rest intId node := by
  simp [parseWalk, h]

theorem parseWalk_cons_intId {excl : List String} {year : Int} {t id0 : List Char}
    (rest : List (List Char)) (intId node : Option String) (hy : isYearTok year t = false)
    (hi : pyFalsy intId = true) (hg : getIntId t = some id0) (hw : wordDashDigit id0 = true) :
    parseWalk excl year (t :: rest) intId node =
      parseWalk excl year rest (some (String.mk id0)) node := by
  simp [parseWalk, hy, hi, hg, hw]

theorem parseWalk_cons_noIntId {excl : List String} {year : Int} {t : List Char}
    (rest : List (List Char)) (intId node : Option String) (hy : isYearTok year t = false)
    (hi : pyFalsy intId = true) (hg : getIntId t = none) :
    parseWalk excl year (t :: rest) intId node = parseWalk excl year rest none node := by
  simp [parseWalk, hy, hi, hg]

theorem parseWalk_cons_node {excl : List String} {year : Int} {t : List Char}
    (rest : List (List Char)) (intId node : Option String) (hy : isYearTok year t = false)
    (hi : pyFalsy intId = false) (hn : pyFalsy node = true) (hex : String.mk t ∉ excl) :
    parseWalk excl year (t :: rest) intId node =
      parseWalk excl year rest intId (some (String.mk t)) := by
  simp [parseWalk, hy, hi, hn, hex]

theorem getIntId_ne_nil : ∀ (l i : List Char), getIntId l = some i → i.isEmpty = false := by
  intro l
  induction l with
  | nil => intro i h; exact absurd h (by simp [getIntId])
  | cons c rest ih =>
    intro i h
    by_cases hd : digitSlashHere (c :: rest)
    · rw [getIntId, if_pos hd] at h
      cases h
      rfl
    · rw [getIntId, if_neg hd] at h
      exact ih i h

theorem strMk_isEmpty_false (l : List Char) (h : l.isEmpty = false) :
    (String.mk l).isEmpty = false := by
  cases hc : (String.mk l).isEmpty with
  | false => rfl
  | true =>
    exfalso
    have he : String.mk l = "" := (String.isEmpty_iff _).mp hc
    have hl : l = [] := by
      have := congrArg String.data he
      simpa using this
    rw [hl] at h
    exact absurd h (by decide)

theorem parseWalk_shape (excl : List String) (year : Int) :
    ∀ (l : List (List Char)) (i n : Option String),
      (i = none ∨ ∃ s, i = some s ∧ s.isEmpty = false) →
      (pyFalsy i = true → pyFalsy n = true) →
      ((parseWalk excl year l i n).1 = none ∨
        ∃ s, (parseWalk excl year l i n).1 = some s ∧ s.isEmpty = false) ∧
      (pyFalsy (parseWalk excl year l i n).1 = true →
        pyFalsy (parseWalk excl year l i n).2 = true) := by
  intro l
  induction l with
  | nil => intro i n hi hn; exact ⟨hi, hn⟩
  | cons t rest ih =>
    intro i n hi hn
    cases hy : isYearTok year t with
    | true =>
      rw [parseWalk_cons_year _ _ _ hy]
      exact ih i n hi hn
    | false =>
      cases hfi : pyFalsy i with
      | true =>
        cases hg : getIntId t with
        | none =>
          rw [parseWalk_cons_noIntId _ _ _ hy hfi hg]
          exact ih none n (Or.inl rfl) (fun _ => hn hfi)
        | some id0 =>
          cases hw : wordDashDigit id0 with
          | true =>
            rw [parseWalk_cons_intId _ _ _ hy hfi hg hw]
            refine ih (some (String.mk id0)) n ?_ ?_
            · exact Or.inr ⟨String.mk id0, rfl,
                strMk_isEmpty_false id0 (getIntId_ne_nil t id0 hg)⟩
            · intro hfalse
              exact hn hfi
          | false =>
            have : parseWalk excl year (t :: rest) i n = parseWalk excl year rest none n := by
              simp [parseWalk, hy, hfi, hg, hw]
            rw [this]
            exact ih none n (Or.inl rfl) (fun _ => hn hfi)
      | false =>
        cases hfn : pyFalsy n with
        | true =>
          by_cases hex : String.mk t ∈ excl
          · have : parseWalk excl year (t :: rest) i n = parseWalk excl year rest i none := by
              simp [parseWalk, hy, hfi, hfn, hex]
            rw [this]
            exact ih i none hi (by intro hc; rw [hc] at hfi; cases hfi)
          · rw [parseWalk_cons_node _ _ _ hy hfi hfn hex]
            exact ih i (some (String.mk t)) hi (by intro hc; rw [hc] at hfi; cases hfi)
        | false =>
          have : parseWalk excl year (t :: rest) i n = (i, n) := by
            simp [parseWalk, hy, hfi, hfn]
          rw [this]
          exact ⟨hi, by intro hc; rw [hc] at hfi; cases hfi⟩

theorem parse_some_iface (excl : List String) (year : Int) (d : String) (h : Hint) :
    parseDescription excl year d = some h → ∃ s, h.iface = some s ∧ s.isEmpty = false := by
  intro hp
  obtain ⟨hshape, himp⟩ := parseWalk_shape excl year
    ((splitTok '_' (d.toList.map lowerChar)).drop 1).reverse none none (Or.inl rfl)
    (fun _ => rfl)
  have hpe : parseDescription excl year d =
      (let p := parseWalk excl year
        ((splitTok '_' (d.toList.map lowerChar)).drop 1).reverse none none
       if pyFalsy p.1 && pyFalsy p.2 then none else some (Hint.mk p.2 p.1)) := rfl
  rw [hpe] at hp
  simp only at hp
  cases hcond : (pyFalsy (parseWalk excl year
      ((splitTok '_' (d.toList.map lowerChar)).drop 1).reverse none none).1 &&
      pyFalsy (parseWalk excl year
      ((splitTok '_' (d.toList.map lowerChar)).drop 1).reverse none none).2) with
  | true => rw [hcond] at hp; exact absurd hp (by simp)
  | false =>
    rw [hcond] at hp
    simp only [Bool.false_eq_true, if_false] at hp
    cases hp
    cases hshape with
    | inl hnone =>
      exfalso
      have h1 : pyFalsy (parseWalk excl year
          ((splitTok '_' (d.toList.map lowerChar)).drop 1).reverse none none).1 = true := by
        rw [hnone]; rfl
      have h2 := himp h1
      rw [h1, h2] at hcond
      cases hcond
    | inr hsome => exact hsome

theorem verifyLink_trichotomy (cfg : Config) (year : Int) (l r : Iface) :
    (verifyLink cfg year l r = Except.ok true ∧
      ∃ lt rt, parseDescription cfg.NODE_EXCLUDELIST year l.description = some lt ∧
        parseDescription cfg.NODE_EXCLUDELIST year r.description = some rt ∧
        l.node ≠ r.node ∧
        (∃ ri, rt.iface = some ri ∧ pyIn ri l.interface = true) ∧
        (∃ li, lt.iface = some li ∧ pyIn li r.interface = true) ∧
        (∃ rn, rt.node = some rn ∧ pyIn rn l.node = true) ∧
        (∃ ln, lt.node = some ln ∧ pyIn ln r.node = true)) ∨
    (∃ k, verifyLink cfg year l r = Except.error (PyErr.verification k)) ∨
    (verifyLink cfg year l r = Except.error PyErr.typeError ∧
      ((∃ rt, parseDescription cfg.NODE_EXCLUDELIST year r.description = some rt ∧
          (rt.iface = none ∨ rt.node = none)) ∨
       (∃ lt, parseDescription cfg.NODE_EXCLUDELIST year l.description = some lt ∧
          (lt.iface = none ∨ lt.node = none)))) := by
  cases hl : parseDescription cfg.NODE_EXCLUDELIST year l.description with
  | none =>
    refine Or.inr (Or.inl ⟨VKind.unparsable, ?_⟩)
    simp [verifyLink, hl]
  | some lt =>
    cases hr : parseDescription cfg.NODE_EXCLUDELIST year r.description with
    | none =>
      refine Or.inr (Or.inl ⟨VKind.unparsable, ?_⟩)
      simp [verifyLink, hl, hr]
    | some rt =>
      cases hnode : l.node == r.node with
      | true =>
        refine Or.inr (Or.inl ⟨VKind.loop, ?_⟩)
        simp [verifyLink, hl, hr, hnode]
      | false =>
        cases hri : rt.iface with
        | none =>
          refine Or.inr (Or.inr ⟨?_, Or.inl ⟨rt, rfl, Or.inl hri⟩⟩)
          simp [verifyLink, hl, hr, hnode, hri, pyInOpt]
        | some ri =>
          cases hpi : pyIn ri l.interface with
          | false =>
            refine Or.inr (Or.inl ⟨VKind.mismatchInterface, ?_⟩)
            simp [verifyLink, hl, hr, hnode, hri, hpi, pyInOpt]
          | true =>
            cases hli : lt.iface with
            | none =>
              refine Or.inr (Or.inr ⟨?_, Or.inr ⟨lt, rfl, Or.inl hli⟩⟩)
              simp [verifyLink, hl, hr, hnode, hri, hpi, hli, pyInOpt]
            | some li =>
              cases hpl : pyIn li r.interface with
              | false =>
                refine Or.inr (Or.inl ⟨VKind.mismatchInterface, ?_⟩)
                simp [verifyLink, hl, hr, hnode, hri, hpi, hli, hpl, pyInOpt]
              | true =>
                cases hrn : rt.node with
                | none =>
                  refine Or.inr (Or.inr ⟨?_, Or.inl ⟨rt, rfl, Or.inr hrn⟩⟩)
                  simp [verifyLink, hl, hr, hnode, hri, hpi, hli, hpl, hrn, pyInOpt]
                | some rn =>
                  cases hpn : pyIn rn l.node with
                  | false =>
                    refine Or.inr (Or.inl ⟨VKind.mismatchNode, ?_⟩)
                    simp [verifyLink, hl, hr, hnode, hri, hpi, hli, hpl, hrn, hpn, pyInOpt]
                  | true =>
                    cases hln : lt.node with
                    | none =>
                      refine Or.inr (Or.inr ⟨?_, Or.inr ⟨lt, rfl, Or.inr hln⟩⟩)
                      simp [verifyLink, hl, hr, hnode, hri, hpi, hli, hpl, hrn, hpn, hln,
                        pyInOpt]
                    | some ln =>
                      cases hpln : pyIn ln r.node with
                      | false =>
                        refine Or.inr (Or.inl ⟨VKind.mismatchNode, ?_⟩)
                        simp [verifyLink, hl, hr, hnode, hri, hpi, hli, hpl, hrn, hpn, hln,
                          hpln, pyInOpt]
                      | true =>
                        refine Or.inl ⟨?_, lt, rt, rfl, rfl, ?_, ⟨ri, hri, hpi⟩,
                          ⟨li, hli, hpl⟩, ⟨rn, hrn, hpn⟩, ⟨ln, hln, hpln⟩⟩
                        · simp [verifyLink, hl, hr, hnode, hri, hpi, hli, hpl, hrn, hpn,
                            hln, hpln, pyInOpt]
                        · intro he
                          rw [he] at hnode
                          simp at hnode

theorem verifyLink_ok_true_iff (cfg : Config) (year : Int) (l r : Iface) :
    verifyLink cfg year l r = Except.ok true ↔
      ∃ lt rt, parseDescription cfg.NODE_EXCLUDELIST year l.description = some lt ∧
        parseDescription cfg.NODE_EXCLUDELIST year r.description = some rt ∧
        l.node ≠ r.node ∧
        (∃ ri, rt.iface = some ri ∧ pyIn ri l.interface = true) ∧
        (∃ li, lt.iface = some li ∧ pyIn li r.interface = true) ∧
        (∃ rn, rt.node = some rn ∧ pyIn rn l.node = true) ∧
        (∃ ln, lt.node = some ln ∧ pyIn ln r.node = true) := by
  constructor
  · intro h
    rcases verifyLink_trichotomy cfg year l r with ⟨_, hcl⟩ | ⟨k, hk⟩ | ⟨ht, _⟩
    · exact hcl
    · rw [h] at hk; cases hk
    · rw [h] at ht; cases ht
  · rintro ⟨lt, rt, hl, hr, hnode, ⟨ri, hri, hpi⟩, ⟨li, hli, hpl⟩, ⟨rn, hrn, hpn⟩,
      ⟨ln, hln, hpln⟩⟩
    have hb : (l.node == r.node) = false := by
      cases hc : l.node == r.node with
      | false => rfl
      | true => exact absurd (by simpa using hc) hnode
    simp [verifyLink, hl, hr, hb, hri, hli, hrn, hln, pyInOpt, hpi, hpl, hpn, hpln]

theorem verifyLink_ne_ok_false (cfg : Config) (year : Int) (l r : Iface) :
    verifyLink cfg year l r ≠ Except.ok false := by
  intro h
  rcases verifyLink_trichotomy cfg year l r with ⟨ht, _⟩ | ⟨k, hk⟩ | ⟨ht, _⟩ <;>
    rw [h] at * <;> simp_all

/-- C5: the parser lowercases, splits on `_`, walks tokens from the right and
skips numeric tokens from the last 15 calendar years (third conjunct); in
particular `"DC_node-b_Te1/1_2020"` parses to the hint
`(node = "node-b", interface = "1/1")` and `"DC_node-b_deadbeef"` parses to
`None`, for any current year that keeps 2020 inside the 15-year window and any
excludelist not containing `node-b`. -/
theorem parse_description_examples (excl : List String) (year : Int)
    (hy : 2020 ≤ year ∧ year < 2035) (hx : "node-b" ∉ excl) :
    parseDescription excl year "DC_node-b_Te1/1_2020" =
      some (Hint.mk (some "node-b") (some "1/1")) ∧
    parseDescription excl year "DC_node-b_deadbeef" = none ∧
    (∀ t rest intId node, isYearTok year t = true →
      parseWalk excl year (t :: rest) intId node = parseWalk excl year rest intId node) := by
  obtain ⟨hy1, hy2⟩ := hy
  have h2020 : isYearTok year ("2020".toList) = true := by
    have h1 : isNumericTok ("2020".toList) = true := by decide
    have h2 : tokToNat ("2020".toList) = 2020 := by decide
    simp only [isYearTok, h1, h2, Bool.true_and, Bool.and_eq_true, decide_eq_true_eq]
    omega
  have hte : isYearTok year ("te1/1".toList) = false := by
    simp only [isYearTok]
    rw [show isNumericTok ("te1/1".toList) = false from by decide]
    rfl
  have hnb : isYearTok year ("node-b".toList) = false := by
    simp only [isYearTok]
    rw [show isNumericTok ("node-b".toList) = false from by decide]
    rfl
  have hdead : isYearTok year ("deadbeef".toList) = false := by
    simp only [isYearTok]
    rw [show isNumericTok ("deadbeef".toList) = false from by decide]
    rfl
  have hmknb : String.mk ("node-b".toList) = "node-b" := rfl
  refine ⟨?_, ?_, ?_⟩
  · have e1 : parseDescription excl year "DC_node-b_Te1/1_2020" =
        (let p := parseWalk excl year ["2020".toList, "te1/1".toList, "node-b".toList] none none
         if pyFalsy p.1 && pyFalsy p.2 then none else some (Hint.mk p.2 p.1)) := rfl
    have w1 : parseWalk excl year ["2020".toList, "te1/1".toList, "node-b".toList] none none =
        (some "1/1", some "node-b") := by
      rw [parseWalk_cons_year _ none none h2020,
        parseWalk_cons_intId _ none none hte rfl
          (show getIntId ("te1/1".toList) = some ("1/1".toList) from by decide)
          (show wordDashDigit ("1/1".toList) = true from by decide),
        show String.mk ("1/1".toList) = "1/1" from rfl,
        parseWalk_cons_node _ (some "1/1") none hnb (by decide) rfl
          (by rw [hmknb]; exact hx), hmknb]
      exact rfl
    rw [e1]
    simp only [w1]
    decide
  · have e2 : parseDescription excl year "DC_node-b_deadbeef" =
        (let p := parseWalk excl year ["deadbeef".toList, "node-b".toList] none none
         if pyFalsy p.1 && pyFalsy p.2 then none else some (Hint.mk p.2 p.1)) := rfl
    have w2 : parseWalk excl year ["deadbeef".toList, "node-b".toList] none none =
        (none, none) := by
      rw [parseWalk_cons_noIntId _ none none hdead rfl
          (show getIntId ("deadbeef".toList) = none from by decide),
        parseWalk_cons_noIntId _ none none hnb rfl
          (show getIntId ("node-b".toList) = none from by decide)]
      exact rfl
    rw [e2]
    simp only [w2]
    decide
  · intro t rest intId node h
    exact parseWalk_cons_year _ _ _ h

/-- C2 (counterexample): a clause failure that does not raise a
`VerificationError`.  The remote description `"dc_te1/1"` parses to a hint
whose node is `None`; the interface cross-checks pass, and the node-substring
check then evaluates `None in local.node`, raising `TypeError`. -/
theorem verify_link_type_error_counterexample :
    verifyLink cfgEmpty 2026 ifLocalA ifRemoteNoNode = Except.error PyErr.typeError ∧
    ∀ k, verifyLink cfgEmpty 2026 ifLocalA ifRemoteNoNode ≠
      Except.error (PyErr.verification k) := by
  have h : verifyLink cfgEmpty 2026 ifLocalA ifRemoteNoNode = Except.error PyErr.typeError := rfl
  refine ⟨h, ?_⟩
  intro k hk
  rw [h] at hk
  cases hk

/-- C2 (amended): `verify_link(local, remote)` returns True iff both
descriptions parse, the nodes differ, and the four parsed-hint substring
clauses hold; it never returns False; and a failed clause raises a
`VerificationError`, except that when a parse yields a hint whose node field
is null and control reaches the node-substring checks, a `TypeError` is
raised instead. -/
theorem verify_link_characterization (cfg : Config) (year : Int) (l r : Iface) :
    (verifyLink cfg year l r = Except.ok true ↔
      ∃ lt rt, parseDescription cfg.NODE_EXCLUDELIST year l.description = some lt ∧
        parseDescription cfg.NODE_EXCLUDELIST year r.description = some rt ∧
        l.node ≠ r.node ∧
        (∃ ri, rt.iface = some ri ∧ pyIn ri l.interface = true) ∧
        (∃ li, lt.iface = some li ∧ pyIn li r.interface = true) ∧
        (∃ rn, rt.node = some rn ∧ pyIn rn l.node = true) ∧
        (∃ ln, lt.node = some ln ∧ pyIn ln r.node = true)) ∧
    (∀ b, verifyLink cfg year l r = Except.ok b → b = true) ∧
    (∀ e, verifyLink cfg year l r = Except.error e →
      (∃ k, e = PyErr.verification k) ∨
      (e = PyErr.typeError ∧
        ((∃ rt, parseDescription cfg.NODE_EXCLUDELIST year r.description = some rt ∧
            rt.node = none) ∨
         (∃ lt, parseDescription cfg.NODE_EXCLUDELIST year l.description = some lt ∧
            lt.node = none)))) := by
  refine ⟨verifyLink_ok_true_iff cfg year l r, ?_, ?_⟩
  · intro b hb
    cases b with
    | true => rfl
    | false => exact absurd hb (verifyLink_ne_ok_false cfg year l r)
  · intro e he
    rcases verifyLink_trichotomy cfg year l r with ⟨ht, _⟩ | ⟨k, hk⟩ | ⟨ht, hcond⟩
    · rw [he] at ht; cases ht
    · rw [he] at hk
      cases hk
      exact Or.inl ⟨k, rfl⟩
    · rw [he] at ht
      cases ht
      refine Or.inr ⟨rfl, ?_⟩
      rcases hcond with ⟨rt, hr, hcase⟩ | ⟨lt, hl, hcase⟩
      · refine Or.inl ⟨rt, hr, ?_⟩
        rcases hcase with hif | hnode
        · obtain ⟨s, hs, _⟩ := parse_some_iface _ _ _ _ hr
          rw [hs] at hif
          cases hif
        · exact hnode
      · refine Or.inr ⟨lt, hl, ?_⟩
        rcases hcase with hif | hnode
        · obtain ⟨s, hs, _⟩ := parse_some_iface _ _ _ _ hl
          rw [hs] at hif
          cases hif
        · exact hnode

theorem verifyLink_symm (cfg : Config) (year : Int) (a b : Iface)
    (h : verifyLink cfg year a b = Except.ok true) :
    verifyLink cfg year b a = Except.ok true := by
  rw [verifyLink_ok_true_iff] at h ⊢
  obtain ⟨lt, rt, hl, hr, hnode, c1, c2, c3, c4⟩ := h
  exact ⟨rt, lt, hr, hl, hnode.symm, c2, c1, c4, c3⟩

theorem searchAux_some (cfg : Config) (year : Int) (fnv : Bool) (interface : Iface)
    (rp : Hint) : ∀ (l : List Iface) (f : Iface),
    searchAux cfg year fnv interface rp l = Except.ok (some f) →
    verifyLink cfg year interface f = Except.ok true := by
  intro l
  induction l with
  | nil =>
    intro f h
    exact absurd h (by simp [searchAux])
  | cons ri rest ih =>
    intro f h
    cases hn : rp.node with
    | none =>
      simp only [searchAux, hn, pyFalsy, if_true] at h
      exact ih f h
    | some n =>
      cases hne : n.isEmpty with
      | true =>
        have hfal : pyFalsy (some n) = true := hne
        simp only [searchAux, hn, hfal, if_true] at h
        exact ih f h
      | false =>
        have hfal : pyFalsy (some n) = false := hne
        simp only [searchAux, hn, hfal, Bool.false_eq_true, if_false] at h
        cases hpin : pyIn n ri.node with
        | false =>
          rw [hpin] at h
          simp only [Bool.false_eq_true, if_false] at h
          exact ih f h
        | true =>
          rw [hpin] at h
          simp only [if_true] at h
          cases hio : pyInOpt rp.iface ri.interface with
          | error e =>
            rw [hio] at h
            cases h
          | ok bi =>
            rw [hio] at h
            cases bi with
            | false =>
              simp only [Bool.not_false, if_true] at h
              exact ih f h
            | true =>
              simp only [Bool.not_true, Bool.false_eq_true, if_false] at h
              by_cases hsame : (interface.node == ri.node) = true
              · rw [if_pos hsame] at h
                exact ih f h
              · rw [if_neg hsame] at h
                cases hv : verifyLink cfg year interface ri with
                | ok b =>
                  rw [hv] at h
                  cases b with
                  | true =>
                    cases h
                    exact hv
                  | false => exact ih f h
                | error e =>
                  rw [hv] at h
                  cases e with
                  | verification k =>
                    cases fnv with
                    | true => cases h
                    | false => exact ih f h
                  | typeError => cases h
                  | attributeError => cases h

theorem searchByDescription_some (cfg : Config) (year : Int) (fnv : Bool)
    (interfacelist : List Iface) (interface f : Iface)
    (h : searchByDescription cfg year fnv interfacelist interface = Except.ok (some f)) :
    verifyLink cfg year interface f = Except.ok true := by
  unfold searchByDescription at h
  cases hp : parseDescription cfg.NODE_EXCLUDELIST year interface.description with
  | none => rw [hp] at h; cases h
  | some rp =>
    rw [hp] at h
    exact searchAux_some cfg year fnv interface rp interfacelist f h

theorem buildLinks_mem (cfg : Config) (year : Int) (matched : List Iface) :
    ∀ (l exclude : List Iface) (links : List Link) (L : Link),
    buildLinks cfg year matched l exclude = Except.ok links → L ∈ links →
    searchByDescription cfg year false matched L.source = Except.ok (some L.target) := by
  intro l
  induction l with
  | nil =>
    intro excl links L h hm
    simp only [buildLinks] at h
    cases h
    cases hm
  | cons m rest ih =>
    intro excl links L h hm
    by_cases hex : m ∈ excl
    · rw [buildLinks, if_pos hex] at h
      exact ih excl links L h hm
    · rw [buildLinks, if_neg hex] at h
      cases hs : searchByDescription cfg year false matched m with
      | error e => rw [hs] at h; cases h
      | ok found =>
        cases found with
        | none =>
          simp only [hs] at h
          exact ih excl links L h hm
        | some f =>
          simp only [hs] at h
          by_cases hfex : f ∈ excl
          · rw [if_pos hfex] at h
            exact ih excl links L h hm
          · rw [if_neg hfex] at h
            cases hrec : buildLinks cfg year matched rest (excl ++ [m, f]) with
            | error e => rw [hrec] at h; cases h
            | ok ls =>
              rw [hrec] at h
              cases h
              cases hm with
              | head => exact hs
              | tail _ htail => exact ih (excl ++ [m, f]) ls L hrec htail

/-- C1: every Link emitted by `get_links_between` has endpoints on two
distinct nodes and verifies in both directions. -/
theorem links_between_verified (cfg : Config) (year : Int) (descriptions : List Iface)
    (nodelist : List String) (skipSelf : Bool) (links : List Link) (L : Link)
    (hres : getLinksBetween cfg year descriptions nodelist skipSelf = Except.ok links)
    (hmem : L ∈ links) :
    L.source.node ≠ L.target.node ∧
    verifyLink cfg year L.source L.target = Except.ok true ∧
    verifyLink cfg year L.target L.source = Except.ok true := by
  unfold getLinksBetween at hres
  simp only [] at hres
  have hsearch := buildLinks_mem cfg year
    (descriptions.flatMap (matchedFor cfg skipSelf nodelist))
    (descriptions.flatMap (matchedFor cfg skipSelf nodelist)) [] links L hres hmem
  have h1 : verifyLink cfg year L.source L.target = Except.ok true :=
    searchByDescription_some cfg year false _ L.source L.target hsearch
  have h2 := verifyLink_symm cfg year L.source L.target h1
  have hne : L.source.node ≠ L.target.node := by
    have := (verifyLink_ok_true_iff cfg year L.source L.target).mp h1
    obtain ⟨_, _, _, _, hnode, _⟩ := this
    exact hnode
  exact ⟨hne, h1, h2⟩

/-- C1 (witness): the `node-a ↔ node-b` pair of the test topology produces
exactly one link, and it verifies both ways. -/
theorem links_between_verified_witness :
    (getLinksBetween cfgEmpty 2026 descsW ["node"] false = Except.ok [linkW] ∧
      linkW ∈ [linkW]) ∧
    (linkW.source.node ≠ linkW.target.node ∧
      verifyLink cfgEmpty 2026 linkW.source linkW.target = Except.ok true ∧
      verifyLink cfgEmpty 2026 linkW.target linkW.source = Except.ok true) :=
  ⟨⟨rfl, by simp⟩,
    links_between_verified cfgEmpty 2026 descsW ["node"] false [linkW] linkW rfl (by simp)⟩

theorem setState_preserves_rates (l : Link) (s : Option StateS) :
    (l.setState s).in_rate = l.in_rate ∧ (l.setState s).out_rate = l.out_rate ∧
    (l.setState s).bandwidth = l.bandwidth := by
  cases s <;> simp [Link.setState]

theorem ratesAllNone_setState (l : Link) (s : Option StateS) :
    (l.setState s).ratesAllNone = l.ratesAllNone := by
  obtain ⟨h1, h2, h3⟩ := setState_preserves_rates l s
  simp [Link.ratesAllNone, h1, h2, h3]

/-- C4: in `get_rates` with remotes unset, a link whose source-side lookup
yields nothing (all three rate fields still absent) gets the target-side Rate
attached reversed (inputs and outputs swapped); if even the reversed Rate
carries nothing (or there is no target-side Rate), the link is removed from
the returned list, which consists exactly of the processed links that kept
some data. -/
theorem rate_fallback_spec (fR : String → String → Option Rate)
    (fS : String → String → Option StateS) (link : Link)
    (hfresh : link.in_rate = none ∧ link.out_rate = none ∧ link.bandwidth = none)
    (hsrc : rateOptEmpty (fR link.source.node link.source.interface) = true) :
    (∀ rv l2, fR link.target.node link.target.interface = some rv →
        processRateLink fR fS link = some l2 →
        l2.in_rate = rv.out_r ∧ l2.out_rate = rv.in_r ∧ l2.bandwidth = rv.bw) ∧
    (processRateLink fR fS link = none ↔
        rateOptEmpty (fR link.target.node link.target.interface) = true) ∧
    (∀ links l2, l2 ∈ getRates fR fS links ↔
        ∃ l0, l0 ∈ links ∧ processRateLink fR fS l0 = some l2) := by
  obtain ⟨hf1, hf2, hf3⟩ := hfresh
  have hl1 : ((link.setRates (fR link.source.node link.source.interface)).setState
      (fS link.source.node link.source.interface)).ratesAllNone = true := by
    rw [ratesAllNone_setState]
    cases hs : fR link.source.node link.source.interface with
    | none => simp [Link.setRates, Link.ratesAllNone, hf1, hf2, hf3]
    | some r =>
      rw [hs] at hsrc
      simp only [rateOptEmpty, Bool.and_eq_true] at hsrc
      simp [Link.setRates, Link.ratesAllNone, hsrc.1.1, hsrc.1.2, hsrc.2]
  have hproc : processRateLink fR fS link =
      (let l2 := (((link.setRates (fR link.source.node link.source.interface)).setState
          (fS link.source.node link.source.interface)).setRates
          ((fR link.target.node link.target.interface).map Rate.reverse)).setState
          (fS link.target.node link.target.interface)
       if l2.ratesAllNone then none else some l2) := by
    simp only [processRateLink, hl1, if_true]
  refine ⟨?_, ?_, ?_⟩
  · intro rv l2 hrv hsome
    rw [hproc] at hsome
    rw [hrv] at hsome
    rw [show Option.map Rate.reverse (some rv) = some rv.reverse from rfl] at hsome
    simp only [] at hsome
    obtain ⟨p1, p2, p3⟩ := setState_preserves_rates
      (((link.setRates (fR link.source.node link.source.interface)).setState
        (fS link.source.node link.source.interface)).setRates (some rv.reverse))
      (fS link.target.node link.target.interface)
    cases hcond : (((((link.setRates (fR link.source.node link.source.interface)).setState
        (fS link.source.node link.source.interface)).setRates
        (some rv.reverse)).setState
        (fS link.target.node link.target.interface)).ratesAllNone) with
    | true => rw [hcond] at hsome; simp at hsome
    | false =>
      rw [hcond] at hsome
      simp only [Bool.false_eq_true, if_false] at hsome
      cases hsome
      refine ⟨?_, ?_, ?_⟩
      · rw [p1]; rfl
      · rw [p2]; rfl
      · rw [p3]; rfl
  · rw [hproc]
    simp only []
    cases hrv : fR link.target.node link.target.interface with
    | none =>
      rw [show Option.map Rate.reverse (none : Option Rate) = none from rfl]
      have : ((link.setRates (fR link.source.node link.source.interface)).setState
          (fS link.source.node link.source.interface)).setRates none =
          (link.setRates (fR link.source.node link.source.interface)).setState
          (fS link.source.node link.source.interface) := rfl
      rw [this]
      rw [ratesAllNone_setState, hl1]
      simp [rateOptEmpty]
    | some rv =>
      rw [show Option.map Rate.reverse (some rv) = some rv.reverse from rfl]
      rw [ratesAllNone_setState]
      have hset : (((link.setRates (fR link.source.node link.source.interface)).setState
          (fS link.source.node link.source.interface)).setRates
          (some rv.reverse)).ratesAllNone =
          (rv.out_r.isNone && rv.in_r.isNone && rv.bw.isNone) := by
        simp [Link.setRates, Link.ratesAllNone, Rate.reverse]
      rw [hset]
      simp only [rateOptEmpty]
      cases rv.in_r <;> cases rv.out_r <;> cases rv.bw <;> simp
  · intro links l2
    simp [getRates, List.mem_filterMap]

/-- C4 (witness): the concrete scenario of `test_missing_rate` — the source
side of the link has no Rate, the target side does. -/
theorem rate_fallback_spec_witness :
    ((linkRateW.in_rate = none ∧ linkRateW.out_rate = none ∧ linkRateW.bandwidth = none) ∧
      rateOptEmpty (fRW linkRateW.source.node linkRateW.source.interface) = true) ∧
    ((∀ rv l2, fRW linkRateW.target.node linkRateW.target.interface = some rv →
        processRateLink fRW fSW linkRateW = some l2 →
        l2.in_rate = rv.out_r ∧ l2.out_rate = rv.in_r ∧ l2.bandwidth = rv.bw) ∧
     (processRateLink fRW fSW linkRateW = none ↔
        rateOptEmpty (fRW linkRateW.target.node linkRateW.target.interface) = true) ∧
     (∀ links l2, l2 ∈ getRates fRW fSW links ↔
        ∃ l0, l0 ∈ links ∧ processRateLink fRW fSW l0 = some l2)) :=
  ⟨⟨by decide, by decide⟩,
    rate_fallback_spec fRW fSW linkRateW ⟨by decide, by decide, by decide⟩ (by decide)⟩

/-- C5 (witness): instantiation at the current year 2026 and the empty
excludelist. -/
theorem parse_description_examples_witness :
    ((2020 ≤ (2026 : Int) ∧ (2026 : Int) < 2035) ∧ "node-b" ∉ ([] : List String)) ∧
    (parseDescription [] 2026 "DC_node-b_Te1/1_2020" =
        some (Hint.mk (some "node-b") (some "1/1")) ∧
      parseDescription [] 2026 "DC_node-b_deadbeef" = none ∧
      (∀ t rest intId node, isYearTok 2026 t = true →
        parseWalk [] 2026 (t :: rest) intId node = parseWalk [] 2026 rest intId node)) :=
  ⟨⟨by decide, by decide⟩, parse_description_examples [] 2026 (by decide) (by decide)⟩

end Weathermap
